import Mathlib

/-
Verification development for the boids flocking core of game-of-life-rs
(src/src/main.rs).  The per-tick steering pipeline is embedded shallowly:
agents are records over exact rationals, and the primitive numeric
operations of the source (sqrt, cbrt, atan2, cos, sin and the constant pi)
are abstracted as a record of functions so that every theorem holds for
any interpretation of those primitives.  All control structure — the
all-pairs scans, the id-keyed pending-update maps with overwriting insert,
the two-pass read/commit discipline, and the chained system order of
`main` — is transcribed directly from the Rust source.
-/

namespace Boids

/-- Boid component from the source: id, position, velocity, direction. -/
structure Boid where
  id : ℕ
  position : ℚ × ℚ
  velocity : ℚ × ℚ
  direction : ℚ
  deriving DecidableEq

/-- Configuration constants of the source (`SCREEN_WIDTH`, `BOID_SIZE`,
`SPEED`, the three distances and sensitivities), made parameters so that
claims quantifying over the constants can be stated. -/
structure Config where
  screenWidth : ℚ
  screenHeight : ℚ
  boidSize : ℚ
  speed : ℚ
  separationDistance : ℚ
  separationSensitivity : ℚ
  alignmentDistance : ℚ
  alignmentSensitivity : ℚ
  cohesionDistance : ℚ
  cohesionSensitivity : ℚ
  deriving DecidableEq

/-- Concrete constant values of the source file. -/
def referenceConfig : Config where
  screenWidth := 960
  screenHeight := 960 * 9 / 16
  boidSize := 15
  speed := 3
  separationDistance := 50
  separationSensitivity := 1 / 10
  alignmentDistance := 70
  alignmentSensitivity := 0
  cohesionDistance := 100
  cohesionSensitivity := 0

/-- Primitive numeric operations used by the source (`f32::sqrt`, `cbrt`,
`atan2`, `cos`, `sin`, and the constant `PI`), abstracted as data. -/
structure Ops where
  pi : ℚ
  sqrt : ℚ → ℚ
  cbrt : ℚ → ℚ
  atan2 : ℚ → ℚ → ℚ
  cos : ℚ → ℚ
  sin : ℚ → ℚ

/-- Euclidean distance between two boids, as in every rule of the source:
`((dx).powi(2) + (dy).powi(2)).sqrt()`. -/
def distance (ops : Ops) (b1 b2 : Boid) : ℚ :=
  ops.sqrt ((b1.position.1 - b2.position.1) ^ 2 + (b1.position.2 - b2.position.2) ^ 2)

/-- Pending-update map keyed by agent id, modelling the source's
`HashMap<u16, f32>` of direction updates. -/
abbrev Updates := ℕ → Option ℚ

/-- Empty pending-update map (`HashMap::new`). -/
def emptyUpdates : Updates := fun _ => none

/-- Overwriting insert (`HashMap::insert`). -/
def Updates.insert (m : Updates) (k : ℕ) (v : ℚ) : Updates :=
  fun k' => if k' = k then some v else m k'

/-- Commit of the pending update for one boid, modelling the body of each
rule's write pass: `if let Some(d) = updates.get(&boid.id) { boid.direction = *d }`. -/
def commitOne (m : Updates) (b : Boid) : Boid :=
  match m b.id with
  | some d => { b with direction := d }
  | none => b

/-- Write pass of a rule: apply the pending map to every boid. -/
def applyUpdates (m : Updates) (bs : List Boid) : List Boid :=
  bs.map (commitOne m)

/-- Candidate heading computed by the separation rule for `b1` against a
threatening neighbour `b2` at distance `d` (source lines 154–165). -/
def sepNewDirection (cfg : Config) (ops : Ops) (b1 b2 : Boid) (d : ℚ) : ℚ :=
  let towardsCollision :=
    ops.atan2 (b1.position.2 - b2.position.2) (b1.position.1 - b2.position.1)
  let awayFromCollision := towardsCollision + ops.pi
  if |awayFromCollision - b1.direction| < ops.pi then
    b1.direction - (awayFromCollision - b1.direction) * cfg.separationSensitivity / ops.cbrt d
  else
    b1.direction - (b1.direction - awayFromCollision) * cfg.separationSensitivity / ops.cbrt d

/-- Inner-loop body of the separation read pass: skip equal ids, otherwise
insert a pending heading for `b1` when `b2` is within
`SEPARATION_DISTANCE + BOID_SIZE`. -/
def sepStep (cfg : Config) (ops : Ops) (b1 : Boid) (m : Updates) (b2 : Boid) : Updates :=
  if b1.id = b2.id then m
  else if distance ops b1 b2 < cfg.separationDistance + cfg.boidSize then
    m.insert b1.id (sepNewDirection cfg ops b1 b2 (distance ops b1 b2))
  else m

/-- Inner loop of the separation read pass for a fixed `b1`. -/
def sepOne (cfg : Config) (ops : Ops) (bs : List Boid) (m : Updates) (b1 : Boid) : Updates :=
  bs.foldl (sepStep cfg ops b1) m

/-- Full separation read pass (both nested `for` loops of the source). -/
def sepPending (cfg : Config) (ops : Ops) (bs : List Boid) : Updates :=
  bs.foldl (sepOne cfg ops bs) emptyUpdates

/-- Separation rule (`update_directions_from_separation`): read pass into a
pending map, then write pass. -/
def update_directions_from_separation (cfg : Config) (ops : Ops) (bs : List Boid) : List Boid :=
  applyUpdates (sepPending cfg ops bs) bs

/-- Inner-loop body of the alignment read pass, accumulating the sum of
neighbour directions and the neighbour count. -/
def alignStep (cfg : Config) (ops : Ops) (b1 : Boid) (acc : ℚ × ℕ) (b2 : Boid) : ℚ × ℕ :=
  if b1.id = b2.id then acc
  else if distance ops b1 b2 - cfg.boidSize < cfg.alignmentDistance then
    (acc.1 + b2.direction, acc.2 + 1)
  else acc

/-- Alignment read-pass body for a fixed `b1` (source lines 182–211). -/
def alignOne (cfg : Config) (ops : Ops) (bs : List Boid) (m : Updates) (b1 : Boid) : Updates :=
  let acc := bs.foldl (alignStep cfg ops b1) (0, 0)
  if 0 < acc.2 then
    let towardsAlignment := acc.1 / (acc.2 : ℚ)
    m.insert b1.id
      (if |towardsAlignment - b1.direction| < ops.pi then
        b1.direction + (towardsAlignment - b1.direction) * cfg.alignmentSensitivity
      else
        b1.direction + (b1.direction - towardsAlignment) * cfg.alignmentSensitivity)
  else m

/-- Full alignment read pass. -/
def alignPending (cfg : Config) (ops : Ops) (bs : List Boid) : Updates :=
  bs.foldl (alignOne cfg ops bs) emptyUpdates

/-- Alignment rule (`update_directions_from_alignment`). -/
def update_directions_from_alignment (cfg : Config) (ops : Ops) (bs : List Boid) : List Boid :=
  applyUpdates (alignPending cfg ops bs) bs

/-- Inner-loop body of the cohesion read pass, accumulating the sum of
neighbour positions and the neighbour count. -/
def cohStep (cfg : Config) (ops : Ops) (b1 : Boid) (acc : (ℚ × ℚ) × ℕ) (b2 : Boid) :
    (ℚ × ℚ) × ℕ :=
  if b1.id = b2.id then acc
  else if distance ops b1 b2 - cfg.boidSize < cfg.cohesionDistance then
    ((acc.1.1 + b2.position.1, acc.1.2 + b2.position.2), acc.2 + 1)
  else acc

/-- Cohesion read-pass body for a fixed `b1` (source lines 224–257). -/
def cohOne (cfg : Config) (ops : Ops) (bs : List Boid) (m : Updates) (b1 : Boid) : Updates :=
  let acc := bs.foldl (cohStep cfg ops b1) ((0, 0), 0)
  if 0 < acc.2 then
    let avg := (acc.1.1 / (acc.2 : ℚ), acc.1.2 / (acc.2 : ℚ))
    let towardsCenter := ops.atan2 (avg.2 - b1.position.2) (avg.1 - b1.position.1)
    m.insert b1.id
      (if |towardsCenter - b1.direction| < ops.pi then
        b1.direction + (towardsCenter - b1.direction) * cfg.cohesionSensitivity
      else
        b1.direction + (b1.direction - towardsCenter) * cfg.cohesionSensitivity)
  else m

/-- Full cohesion read pass. -/
def cohPending (cfg : Config) (ops : Ops) (bs : List Boid) : Updates :=
  bs.foldl (cohOne cfg ops bs) emptyUpdates

/-- Cohesion rule (`update_directions_from_cohesion`). -/
def update_directions_from_cohesion (cfg : Config) (ops : Ops) (bs : List Boid) : List Boid :=
  applyUpdates (cohPending cfg ops bs) bs

/-- Distance-weighted two-branch blend used by the boundary-avoidance rule
for one edge with fixed away bearing `away` and edge distance `d`. -/
def borderBlend (cfg : Config) (ops : Ops) (dir away d : ℚ) : ℚ :=
  if |away - dir| < ops.pi then
    dir + (away - dir) * cfg.separationSensitivity / ops.cbrt d
  else
    dir + (dir - away) * cfg.separationSensitivity / ops.cbrt d

/-- Read-pass body of `stay_away_from_borders` for one boid: three
sequential conditional inserts for the bottom, top and left edges.  The
right-edge distance is computed but, exactly as in the source, never
checked. -/
def borderOne (cfg : Config) (ops : Ops) (m : Updates) (b : Boid) : Updates :=
  let distFromLeft := b.position.1 + cfg.screenWidth / 2
  let _distFromRight := cfg.screenWidth / 2 - b.position.1
  let distFromTop := cfg.screenHeight / 2 - b.position.2
  let distFromBottom := b.position.2 + cfg.screenHeight / 2
  let m1 :=
    if distFromBottom < cfg.separationDistance then
      m.insert b.id (borderBlend cfg ops b.direction (ops.pi / 2) distFromBottom)
    else m
  let m2 :=
    if distFromTop < cfg.separationDistance then
      m1.insert b.id (borderBlend cfg ops b.direction (3 * ops.pi / 2) distFromTop)
    else m1
  if distFromLeft < cfg.separationDistance then
    m2.insert b.id (borderBlend cfg ops b.direction 0 distFromLeft)
  else m2

/-- Full boundary-avoidance read pass. -/
def borderPending (cfg : Config) (ops : Ops) (bs : List Boid) : Updates :=
  bs.foldl (borderOne cfg ops) emptyUpdates

/-- Boundary-avoidance rule (`stay_away_from_borders`). -/
def stay_away_from_borders (cfg : Config) (ops : Ops) (bs : List Boid) : List Boid :=
  applyUpdates (borderPending cfg ops bs) bs

/-- Velocity integrator (`update_velocities`): velocity fully overwritten
with `(cos(direction) * SPEED, sin(direction) * SPEED)`. -/
def update_velocities (cfg : Config) (ops : Ops) (bs : List Boid) : List Boid :=
  bs.map fun b =>
    { b with velocity := (ops.cos b.direction * cfg.speed, ops.sin b.direction * cfg.speed) }

/-- Position integrator (`update_positions`): `position += velocity`. -/
def update_positions (bs : List Boid) : List Boid :=
  bs.map fun b =>
    { b with position := (b.position.1 + b.velocity.1, b.position.2 + b.velocity.2) }

/-- Chained system list of `main`'s `add_systems(Update, (...).chain())`,
restricted to the simulation core (the trailing presentation sync and frame
delay are external to the agent state). -/
def systems (cfg : Config) (ops : Ops) : List (List Boid → List Boid) :=
  [update_directions_from_separation cfg ops,
   update_directions_from_alignment cfg ops,
   update_directions_from_cohesion cfg ops,
   stay_away_from_borders cfg ops,
   update_velocities cfg ops,
   update_positions]

/-- One simulation tick: run the chained systems in order. -/
def tick (cfg : Config) (ops : Ops) (bs : List Boid) : List Boid :=
  (systems cfg ops).foldl (fun s f => f s) bs

/-- Iterated ticks. -/
def tickIter (cfg : Config) (ops : Ops) : ℕ → List Boid → List Boid
  | 0, bs => bs
  | n + 1, bs => tick cfg ops (tickIter cfg ops n bs)

/-- Last neighbour of `b1` within the separation threshold, in iteration
order of the scan (the neighbour whose pending insert survives). -/
def lastSepNeighbor (cfg : Config) (ops : Ops) (b1 : Boid) (bs : List Boid) : Option Boid :=
  bs.foldl
    (fun acc b2 =>
      if b1.id ≠ b2.id ∧ distance ops b1 b2 < cfg.separationDistance + cfg.boidSize then some b2
      else acc)
    none

/-- Free motion of a single boid during one tick when every directional
rule is inert: velocity overwritten from the heading, position advanced. -/
def stepFree (cfg : Config) (ops : Ops) (b : Boid) : Boid :=
  { b with
    velocity := (ops.cos b.direction * cfg.speed, ops.sin b.direction * cfg.speed),
    position := (b.position.1 + ops.cos b.direction * cfg.speed,
                 b.position.2 + ops.sin b.direction * cfg.speed) }

/-- Iterated free motion. -/
def freeIter (cfg : Config) (ops : Ops) : ℕ → Boid → Boid
  | 0, b => b
  | n + 1, b => stepFree cfg ops (freeIter cfg ops n b)

/-- Sample interpretation of the primitive numeric operations, agreeing
with the real functions on the inputs used by the concrete witnesses
(perfect squares for `sqrt`, zero for `sqrt` and `atan2`). -/
def testOps : Ops where
  pi := 3
  sqrt := fun q =>
    if q = 900 then 30 else if q = 1600 then 40 else if q = 2500 then 50
    else if q = 10000 then 100 else 0
  cbrt := fun q => if q = 0 then 0 else if q = 27 then 3 else 1
  atan2 := fun y x => if y = 0 ∧ x = 0 then 0 else 1
  cos := fun q => 1 - q ^ 2 / 2
  sin := fun q => q

/-- Reference configuration with all three rule sensitivities zero. -/
def zeroCfg : Config := { referenceConfig with separationSensitivity := 0 }

/-- Concrete boid at the origin. -/
def testA : Boid := ⟨0, (0, 0), (0, 0), 0⟩

/-- Concrete boid 30 units right of the origin. -/
def testB : Boid := ⟨1, (30, 0), (0, 0), 1⟩

/-- Concrete boid 40 units above the origin. -/
def testC : Boid := ⟨2, (0, 40), (0, 0), 2⟩

/-- Concrete boid 100 units right of the origin (outside every threshold). -/
def testFar : Boid := ⟨3, (100, 0), (0, 0), 0⟩

/-- Boid with duplicated id 5, heading 1. -/
def dupA : Boid := ⟨5, (0, 0), (0, 0), 1⟩

/-- Boid with duplicated id 5, heading 2, same position as `dupA`. -/
def dupB : Boid := ⟨5, (0, 0), (0, 0), 2⟩

/-- Boid with id 7 within separation range of the duplicated pair. -/
def dupC : Boid := ⟨7, (30, 0), (0, 0), 0⟩

/-- Concrete boid sharing `testA`'s position but with a distinct id. -/
def testSame : Boid := ⟨9, (0, 0), (0, 0), 1⟩

/-- Concrete boid one unit above the bottom edge of the reference world. -/
def edgeBottom : Boid := ⟨0, (0, -269), (0, 0), 1⟩

/-- Concrete boid one unit below the top edge of the reference world. -/
def edgeTop : Boid := ⟨0, (0, 269), (0, 0), 1⟩

/-- Concrete boid one unit right of the left edge of the reference world. -/
def edgeLeft : Boid := ⟨0, (-479, 0), (0, 0), 1⟩

/-- Concrete boid one unit left of the right edge of the reference world
(the mirror image of `edgeLeft`). -/
def edgeRight : Boid := ⟨0, (479, 0), (0, 0), 1⟩

/-- Boid with duplicated id 5 near the bottom edge, heading 1. -/
def ctrA : Boid := ⟨5, (0, -269), (0, 0), 1⟩

/-- Boid with duplicated id 5 near the bottom edge, heading 2. -/
def ctrB : Boid := ⟨5, (0, -269), (0, 0), 2⟩

/-- Invariant of the pending maps under zero sensitivity: every stored
value is the writer's own unchanged direction. -/
def dirOnly (bs : List Boid) (m : Updates) : Prop :=
  ∀ k v, m k = some v → ∃ b1 ∈ bs, b1.id = k ∧ v = b1.direction

/-! Shared helper lemmas. -/

lemma insert_lookup_self (m : Updates) (k : ℕ) (v : ℚ) : m.insert k v k = some v := by
  simp [Updates.insert]

lemma insert_lookup_other (m : Updates) (k k' : ℕ) (v : ℚ) (h : k' ≠ k) :
    m.insert k v k' = m k' := by
  simp [Updates.insert, h]

lemma sepStep_lookup_other (cfg : Config) (ops : Ops) (b1 b2 : Boid) (m : Updates) (k : ℕ)
    (h : k ≠ b1.id) : sepStep cfg ops b1 m b2 k = m k := by
  unfold sepStep
  split_ifs <;> simp [Updates.insert, h]

lemma tick_eq (cfg : Config) (ops : Ops) (bs : List Boid) :
    tick cfg ops bs
      = update_positions (update_velocities cfg ops (stay_away_from_borders cfg ops
          (update_directions_from_cohesion cfg ops (update_directions_from_alignment cfg ops
            (update_directions_from_separation cfg ops bs))))) := rfl

lemma lastSepNeighbor_aux (cfg : Config) (ops : Ops) (b1 : Boid) :
    ∀ (bs : List Boid) (a : Option Boid),
      bs.foldl
          (fun acc b2 =>
            if b1.id ≠ b2.id ∧ distance ops b1 b2 < cfg.separationDistance + cfg.boidSize then
              some b2
            else acc)
          a
        = match lastSepNeighbor cfg ops b1 bs with
          | some y => some y
          | none => a := by
  intro bs
  induction bs with
  | nil => intro a; rfl
  | cons b2 bs ih =>
      intro a
      have hcons : lastSepNeighbor cfg ops b1 (b2 :: bs)
          = bs.foldl
              (fun acc b2 =>
                if b1.id ≠ b2.id ∧ distance ops b1 b2 < cfg.separationDistance + cfg.boidSize then
                  some b2
                else acc)
              (if b1.id ≠ b2.id ∧ distance ops b1 b2 < cfg.separationDistance + cfg.boidSize then
                some b2
              else none) := rfl
      rw [List.foldl_cons, ih, hcons, ih]
      cases hl : lastSepNeighbor cfg ops b1 bs with
      | some y => simp
      | none => split_ifs <;> rfl

lemma sepOne_lookup (cfg : Config) (ops : Ops) (b1 : Boid) :
    ∀ (bs : List Boid) (m : Updates) (k : ℕ),
      sepOne cfg ops bs m b1 k
        = match lastSepNeighbor cfg ops b1 bs with
          | some b2 =>
              if k = b1.id then some (sepNewDirection cfg ops b1 b2 (distance ops b1 b2))
              else m k
          | none => m k := by
  intro bs
  induction bs with
  | nil => intro m k; rfl
  | cons b2 bs ih =>
      intro m k
      have hcons : lastSepNeighbor cfg ops b1 (b2 :: bs)
          = match lastSepNeighbor cfg ops b1 bs with
            | some y => some y
            | none =>
                if b1.id ≠ b2.id ∧ distance ops b1 b2 < cfg.separationDistance + cfg.boidSize
                then some b2 else none := by
        rw [show lastSepNeighbor cfg ops b1 (b2 :: bs)
            = bs.foldl
                (fun acc b2 =>
                  if b1.id ≠ b2.id ∧ distance ops b1 b2 < cfg.separationDistance + cfg.boidSize
                  then some b2 else acc)
                (if b1.id ≠ b2.id ∧ distance ops b1 b2 < cfg.separationDistance + cfg.boidSize
                then some b2 else none) from rfl]
        rw [lastSepNeighbor_aux]
      have hstep : sepOne cfg ops (b2 :: bs) m b1
          = sepOne cfg ops bs (sepStep cfg ops b1 m b2) b1 := rfl
      rw [hstep, ih, hcons]
      cases hl : lastSepNeighbor cfg ops b1 bs with
      | some b3 =>
          by_cases hk : k = b1.id
          · simp [hk]
          · simp only [hk, if_false]
            exact sepStep_lookup_other cfg ops b1 b2 m k hk
      | none =>
          unfold sepStep
          by_cases h1 : b1.id = b2.id
          · simp [h1]
          · by_cases h2 : distance ops b1 b2 < cfg.separationDistance + cfg.boidSize
            · simp [h1, h2, Updates.insert, Ne.symm h1]
            · simp [h1, h2]

lemma sepPending_untouched (cfg : Config) (ops : Ops) (all : List Boid) :
    ∀ (l : List Boid) (m : Updates) (k : ℕ), (∀ b1 ∈ l, b1.id ≠ k) →
      l.foldl (sepOne cfg ops all) m k = m k := by
  intro l
  induction l with
  | nil => intro m k _; rfl
  | cons b l ih =>
      intro m k h
      have hk : b.id ≠ k := h b (by simp)
      rw [List.foldl_cons, ih (sepOne cfg ops all m b) k (fun b1 hb1 => h b1 (by simp [hb1]))]
      rw [sepOne_lookup]
      cases lastSepNeighbor cfg ops b all with
      | some b2 => simp [Ne.symm hk]
      | none => rfl

lemma sepPending_lookup (cfg : Config) (ops : Ops) (bs : List Boid) (A : Boid) (hA : A ∈ bs)
    (hnd : (bs.map Boid.id).Nodup) :
    sepPending cfg ops bs A.id
      = match lastSepNeighbor cfg ops A bs with
        | some b2 => some (sepNewDirection cfg ops A b2 (distance ops A b2))
        | none => none := by
  obtain ⟨s, t, rfl⟩ := List.append_of_mem hA
  have hmap : ((s ++ A :: t).map Boid.id) = s.map Boid.id ++ A.id :: t.map Boid.id := by simp
  rw [hmap] at hnd
  have hdis := (List.nodup_append.mp hnd).2.2
  have hs : ∀ b1 ∈ s, b1.id ≠ A.id := by
    intro b1 hb1 he
    exact hdis (List.mem_map_of_mem Boid.id hb1) (by simp [he])
  have ht : ∀ b1 ∈ t, b1.id ≠ A.id := by
    have hnd2 := (List.nodup_append.mp hnd).2.1
    have hni := (List.nodup_cons.mp hnd2).1
    intro b1 hb1 he
    exact hni (he ▸ List.mem_map_of_mem Boid.id hb1)
  show (s ++ A :: t).foldl (sepOne cfg ops (s ++ A :: t)) emptyUpdates A.id = _
  rw [List.foldl_append, List.foldl_cons]
  rw [sepPending_untouched cfg ops (s ++ A :: t) t _ A.id ht]
  rw [sepOne_lookup]
  have hbase : s.foldl (sepOne cfg ops (s ++ A :: t)) emptyUpdates A.id = none :=
    sepPending_untouched cfg ops (s ++ A :: t) s emptyUpdates A.id hs
  cases lastSepNeighbor cfg ops A (s ++ A :: t) <;> simp [hbase]

lemma sepPending_pair (cfg : Config) (ops : Ops) (A B : Boid) (hid : A.id ≠ B.id) :
    sepPending cfg ops [A, B] A.id
      = if distance ops A B < cfg.separationDistance + cfg.boidSize
        then some (sepNewDirection cfg ops A B (distance ops A B))
        else none := by
  have hA : A ∈ [A, B] := by simp
  have hnd : (([A, B]).map Boid.id).Nodup := by simp [hid]
  rw [sepPending_lookup cfg ops [A, B] A hA hnd]
  have hlast : lastSepNeighbor cfg ops A [A, B]
      = if distance ops A B < cfg.separationDistance + cfg.boidSize then some B else none := by
    show (if A.id ≠ B.id ∧ distance ops A B < cfg.separationDistance + cfg.boidSize then some B
        else if A.id ≠ A.id ∧ distance ops A A < cfg.separationDistance + cfg.boidSize then some A
        else none) = _
    simp [hid]
  rw [hlast]
  split_ifs <;> rfl

lemma foldl_preserve {α β : Type} (P : β → Prop) (f : β → α → β) :
    ∀ (l : List α) (s : β), P s → (∀ s' a, P s' → a ∈ l → P (f s' a)) → P (l.foldl f s) := by
  intro l
  induction l with
  | nil => intro s hs _; simpa using hs
  | cons x l ih =>
      intro s hs hstep
      rw [List.foldl_cons]
      exact ih (f s x) (hstep s x hs (by simp))
        (fun s' a hs' ha => hstep s' a hs' (by simp [ha]))

lemma dirOnly_empty (bs : List Boid) : dirOnly bs emptyUpdates := by
  intro k v h
  simp [emptyUpdates] at h

lemma dirOnly_insert {bs : List Boid} {m : Updates} (hm : dirOnly bs m) {b1 : Boid}
    (hb1 : b1 ∈ bs) : dirOnly bs (m.insert b1.id b1.direction) := by
  intro k v h
  by_cases hk : k = b1.id
  · subst hk
    rw [insert_lookup_self] at h
    exact ⟨b1, hb1, rfl, (Option.some.inj h).symm⟩
  · rw [insert_lookup_other _ _ _ _ hk] at h
    exact hm k v h

lemma sepNewDirection_zero (cfg : Config) (ops : Ops) (b1 b2 : Boid) (d : ℚ)
    (h : cfg.separationSensitivity = 0) : sepNewDirection cfg ops b1 b2 d = b1.direction := by
  simp only [sepNewDirection]
  split_ifs <;> simp [h]

lemma borderBlend_zero (cfg : Config) (ops : Ops) (h : cfg.separationSensitivity = 0)
    (dir away d : ℚ) : borderBlend cfg ops dir away d = dir := by
  unfold borderBlend
  split_ifs <;> simp [h]

lemma sepPending_dirOnly (cfg : Config) (ops : Ops) (bs : List Boid)
    (h : cfg.separationSensitivity = 0) : dirOnly bs (sepPending cfg ops bs) := by
  unfold sepPending
  refine foldl_preserve _ _ bs emptyUpdates (dirOnly_empty bs) ?_
  intro m b1 hm hb1
  unfold sepOne
  refine foldl_preserve _ _ bs m hm ?_
  intro m' b2 hm' _
  unfold sepStep
  split_ifs
  · exact hm'
  · rw [sepNewDirection_zero cfg ops b1 b2 _ h]
    exact dirOnly_insert hm' hb1
  · exact hm'

lemma alignPending_dirOnly (cfg : Config) (ops : Ops) (bs : List Boid)
    (h : cfg.alignmentSensitivity = 0) : dirOnly bs (alignPending cfg ops bs) := by
  unfold alignPending
  refine foldl_preserve _ _ bs emptyUpdates (dirOnly_empty bs) ?_
  intro m b1 hm hb1
  simp only [alignOne]
  split_ifs with h1 h2 <;>
    first
      | exact hm
      | · rw [show b1.direction + _ * cfg.alignmentSensitivity = b1.direction by rw [h]; ring]
          exact dirOnly_insert hm hb1

lemma cohPending_dirOnly (cfg : Config) (ops : Ops) (bs : List Boid)
    (h : cfg.cohesionSensitivity = 0) : dirOnly bs (cohPending cfg ops bs) := by
  unfold cohPending
  refine foldl_preserve _ _ bs emptyUpdates (dirOnly_empty bs) ?_
  intro m b1 hm hb1
  simp only [cohOne]
  split_ifs with h1 h2 <;>
    first
      | exact hm
      | · rw [show b1.direction + _ * cfg.cohesionSensitivity = b1.direction by rw [h]; ring]
          exact dirOnly_insert hm hb1

lemma borderPending_dirOnly (cfg : Config) (ops : Ops) (bs : List Boid)
    (h : cfg.separationSensitivity = 0) : dirOnly bs (borderPending cfg ops bs) := by
  unfold borderPending
  refine foldl_preserve _ _ bs emptyUpdates (dirOnly_empty bs) ?_
  intro m b hm hb
  simp only [borderOne, borderBlend_zero cfg ops h]
  split_ifs <;>
    first
      | exact hm
      | exact dirOnly_insert hm hb
      | exact dirOnly_insert (dirOnly_insert hm hb) hb
      | exact dirOnly_insert (dirOnly_insert (dirOnly_insert hm hb) hb) hb

lemma boid_eq_of_id {bs : List Boid} (hnd : (bs.map Boid.id).Nodup) {a b : Boid}
    (ha : a ∈ bs) (hb : b ∈ bs) (h : a.id = b.id) : a = b :=
  List.inj_on_of_nodup_map hnd ha hb h

lemma applyUpdates_eq_self (bs : List Boid) (m : Updates) (hnd : (bs.map Boid.id).Nodup)
    (hm : dirOnly bs m) : applyUpdates m bs = bs := by
  unfold applyUpdates
  have hpt : ∀ b ∈ bs, commitOne m b = b := by
    intro b hb
    unfold commitOne
    cases hmb : m b.id with
    | none => rfl
    | some v =>
        obtain ⟨b1, hb1, hbid, hv⟩ := hm _ _ hmb
        have hb1b : b1 = b := boid_eq_of_id hnd hb1 hb hbid
        subst hb1b
        subst hv
        rfl
  calc bs.map (commitOne m) = bs.map id := List.map_congr_left hpt
    _ = bs := List.map_id bs

lemma sep_rule_id (cfg : Config) (ops : Ops) (bs : List Boid)
    (h0 : cfg.separationSensitivity = 0) (hnd : (bs.map Boid.id).Nodup) :
    update_directions_from_separation cfg ops bs = bs :=
  applyUpdates_eq_self bs _ hnd (sepPending_dirOnly cfg ops bs h0)

lemma align_rule_id (cfg : Config) (ops : Ops) (bs : List Boid)
    (h0 : cfg.alignmentSensitivity = 0) (hnd : (bs.map Boid.id).Nodup) :
    update_directions_from_alignment cfg ops bs = bs :=
  applyUpdates_eq_self bs _ hnd (alignPending_dirOnly cfg ops bs h0)

lemma coh_rule_id (cfg : Config) (ops : Ops) (bs : List Boid)
    (h0 : cfg.cohesionSensitivity = 0) (hnd : (bs.map Boid.id).Nodup) :
    update_directions_from_cohesion cfg ops bs = bs :=
  applyUpdates_eq_self bs _ hnd (cohPending_dirOnly cfg ops bs h0)

lemma border_rule_id (cfg : Config) (ops : Ops) (bs : List Boid)
    (h0 : cfg.separationSensitivity = 0) (hnd : (bs.map Boid.id).Nodup) :
    stay_away_from_borders cfg ops bs = bs :=
  applyUpdates_eq_self bs _ hnd (borderPending_dirOnly cfg ops bs h0)

lemma tick_zero (cfg : Config) (ops : Ops) (bs : List Boid)
    (hsep : cfg.separationSensitivity = 0) (hali : cfg.alignmentSensitivity = 0)
    (hcoh : cfg.cohesionSensitivity = 0) (hnd : (bs.map Boid.id).Nodup) :
    tick cfg ops bs = bs.map (stepFree cfg ops) := by
  rw [tick_eq]
  rw [sep_rule_id cfg ops bs hsep hnd, align_rule_id cfg ops bs hali hnd,
    coh_rule_id cfg ops bs hcoh hnd, border_rule_id cfg ops bs hsep hnd]
  unfold update_positions update_velocities
  rw [List.map_map]
  exact List.map_congr_left (fun b _ => rfl)

lemma freeIter_id (cfg : Config) (ops : Ops) (n : ℕ) (b : Boid) :
    (freeIter cfg ops n b).id = b.id := by
  induction n with
  | zero => rfl
  | succ n ih => simp [freeIter, stepFree, ih]

lemma freeIter_direction (cfg : Config) (ops : Ops) (n : ℕ) (b : Boid) :
    (freeIter cfg ops n b).direction = b.direction := by
  induction n with
  | zero => rfl
  | succ n ih => simp [freeIter, stepFree, ih]

lemma freeIter_position (cfg : Config) (ops : Ops) (n : ℕ) (b : Boid) :
    (freeIter cfg ops n b).position
      = (b.position.1 + (n : ℚ) * (ops.cos b.direction * cfg.speed),
         b.position.2 + (n : ℚ) * (ops.sin b.direction * cfg.speed)) := by
  induction n with
  | zero => simp [freeIter]
  | succ n ih =>
      have hd := freeIter_direction cfg ops n b
      simp only [freeIter, stepFree, ih, hd, Prod.mk.injEq]
      constructor <;> (push_cast; ring)

lemma freeIter_map_id (cfg : Config) (ops : Ops) (n : ℕ) (bs : List Boid) :
    ((bs.map (freeIter cfg ops n)).map Boid.id) = bs.map Boid.id := by
  rw [List.map_map]
  exact List.map_congr_left (fun b _ => freeIter_id cfg ops n b)

lemma tickIter_zero (cfg : Config) (ops : Ops) (bs : List Boid) (n : ℕ)
    (hsep : cfg.separationSensitivity = 0) (hali : cfg.alignmentSensitivity = 0)
    (hcoh : cfg.cohesionSensitivity = 0) (hnd : (bs.map Boid.id).Nodup) :
    tickIter cfg ops n bs = bs.map (freeIter cfg ops n) := by
  induction n with
  | zero =>
      show bs = bs.map (freeIter cfg ops 0)
      symm
      calc bs.map (freeIter cfg ops 0) = bs.map id := List.map_congr_left (fun b _ => rfl)
        _ = bs := List.map_id bs
  | succ n ih =>
      show tick cfg ops (tickIter cfg ops n bs) = _
      rw [ih, tick_zero cfg ops _ hsep hali hcoh (by rw [freeIter_map_id]; exact hnd),
        List.map_map]
      exact List.map_congr_left (fun b _ => rfl)

lemma applyUpdates_frame (m : Updates) (bs : List Boid) :
    (applyUpdates m bs).map (fun b => (b.id, b.position, b.velocity))
      = bs.map (fun b => (b.id, b.position, b.velocity)) := by
  unfold applyUpdates
  rw [List.map_map]
  refine List.map_congr_left ?_
  intro b _
  simp only [Function.comp]
  cases hm : m b.id <;> simp [commitOne, hm]

lemma applyUpdates_length (m : Updates) (bs : List Boid) :
    (applyUpdates m bs).length = bs.length := by
  simp [applyUpdates]

lemma tick_length (cfg : Config) (ops : Ops) (bs : List Boid) :
    (tick cfg ops bs).length = bs.length := by
  rw [tick_eq]
  simp [update_positions, update_velocities, stay_away_from_borders,
    update_directions_from_cohesion, update_directions_from_alignment,
    update_directions_from_separation, applyUpdates]

lemma borderBlend_eq_kform (cfg : Config) (ops : Ops) (dir away d : ℚ) :
    borderBlend cfg ops dir away d
      = (if |away - dir| < ops.pi then
          dir + (away - dir) * (cfg.separationSensitivity / ops.cbrt d)
        else
          dir + (dir - away) * (cfg.separationSensitivity / ops.cbrt d)) := by
  unfold borderBlend
  split_ifs <;> rw [mul_div_assoc]

lemma borderPending_single (cfg : Config) (ops : Ops) (b : Boid) :
    borderPending cfg ops [b] = borderOne cfg ops emptyUpdates b := rfl

lemma vel_pos_direction (cfg : Config) (ops : Ops) (bs : List Boid) :
    (update_positions (update_velocities cfg ops bs)).map Boid.direction
      = bs.map Boid.direction := by
  unfold update_positions update_velocities
  rw [List.map_map, List.map_map]
  exact List.map_congr_left (fun b _ => rfl)

/-! Claim theorems. -/

/-- C4: every tick runs exactly the chained sequence Separation →
Alignment → Cohesion → Boundary Avoidance → Velocity Integrator → Position
Integrator, and each directional rule is a full read pass over its input
population (its pending map is a function of the pre-rule state alone)
followed by a write pass, so a rule never observes its own in-tick writes
while each later rule consumes the earlier rule's committed output. -/
theorem tick_pipeline_order (cfg : Config) (ops : Ops) (bs : List Boid) :
    tick cfg ops bs
        = update_positions (update_velocities cfg ops (stay_away_from_borders cfg ops
            (update_directions_from_cohesion cfg ops (update_directions_from_alignment cfg ops
              (update_directions_from_separation cfg ops bs)))))
      ∧ update_directions_from_separation cfg ops bs = applyUpdates (sepPending cfg ops bs) bs
      ∧ update_directions_from_alignment cfg ops bs = applyUpdates (alignPending cfg ops bs) bs
      ∧ update_directions_from_cohesion cfg ops bs = applyUpdates (cohPending cfg ops bs) bs
      ∧ stay_away_from_borders cfg ops bs = applyUpdates (borderPending cfg ops bs) bs :=
  ⟨tick_eq cfg ops bs, rfl, rfl, rfl, rfl⟩

/-- C5: immediately after the Velocity Integrator, every agent's velocity
equals exactly (cos(heading)·speed, sin(heading)·speed) for its current
heading, and the result does not depend on the velocity held before: the
rule fully overwrites velocity every tick. -/
theorem velocity_integrator_overwrites (cfg : Config) (ops : Ops) (bs : List Boid) :
    (∀ b ∈ update_velocities cfg ops bs,
        b.velocity = (ops.cos b.direction * cfg.speed, ops.sin b.direction * cfg.speed))
      ∧ ∀ w : ℚ × ℚ,
          update_velocities cfg ops (bs.map fun b => { b with velocity := w })
            = update_velocities cfg ops bs := by
  constructor
  · intro b hb
    obtain ⟨a, _, rfl⟩ := List.mem_map.mp hb
    rfl
  · intro w
    unfold update_velocities
    rw [List.map_map]
    exact List.map_congr_left (fun b _ => rfl)

/-- Witness for C5 at a concrete population of one boid. -/
theorem velocity_integrator_overwrites_witness :
    (⟨0, (0, 0), (3, 0), 0⟩ : Boid) ∈ update_velocities referenceConfig testOps [testA]
      ∧ (⟨0, (0, 0), (3, 0), 0⟩ : Boid).velocity
          = (testOps.cos (⟨0, (0, 0), (3, 0), 0⟩ : Boid).direction * referenceConfig.speed,
             testOps.sin (⟨0, (0, 0), (3, 0), 0⟩ : Boid).direction * referenceConfig.speed) := by
  have hm : (⟨0, (0, 0), (3, 0), 0⟩ : Boid) ∈ update_velocities referenceConfig testOps [testA] := by
    norm_num [update_velocities, testA, testOps, referenceConfig]
  exact ⟨hm, (velocity_integrator_overwrites referenceConfig testOps [testA]).1 _ hm⟩

/-- C8: the number of agents is invariant across any number of ticks; no
step of the pipeline creates or destroys an agent. -/
theorem population_size_invariant (cfg : Config) (ops : Ops) (n : ℕ) (bs : List Boid) :
    (tickIter cfg ops n bs).length = bs.length := by
  induction n with
  | zero => rfl
  | succ n ih =>
      rw [show tickIter cfg ops (n + 1) bs = tick cfg ops (tickIter cfg ops n bs) from rfl,
        tick_length, ih]

/-- C9: each of the four direction rules modifies only the direction field;
the id, position and velocity of every agent are unchanged by running any
one of them. -/
theorem direction_rules_frame (cfg : Config) (ops : Ops) (bs : List Boid) :
    ((update_directions_from_separation cfg ops bs).map
          (fun b => (b.id, b.position, b.velocity))
        = bs.map (fun b => (b.id, b.position, b.velocity)))
      ∧ ((update_directions_from_alignment cfg ops bs).map
            (fun b => (b.id, b.position, b.velocity))
          = bs.map (fun b => (b.id, b.position, b.velocity)))
      ∧ ((update_directions_from_cohesion cfg ops bs).map
            (fun b => (b.id, b.position, b.velocity))
          = bs.map (fun b => (b.id, b.position, b.velocity)))
      ∧ ((stay_away_from_borders cfg ops bs).map
            (fun b => (b.id, b.position, b.velocity))
          = bs.map (fun b => (b.id, b.position, b.velocity))) :=
  ⟨applyUpdates_frame _ bs, applyUpdates_frame _ bs,
   applyUpdates_frame _ bs, applyUpdates_frame _ bs⟩

/-- C1: for distinct agents A and B at distance d = distance(A,B) below
separation_distance + agent_size, the separation rule's pending heading for
A is derived from away = atan2(A.y − B.y, A.x − B.x) + π by the two-branch
subtractive blend with k = separation_sensitivity / d^(1/3); a B at
distance ≥ separation_distance + agent_size contributes no pending update
for A. -/
theorem separation_pending_formula (cfg : Config) (ops : Ops) (A B : Boid)
    (hid : A.id ≠ B.id) :
    (distance ops A B < cfg.separationDistance + cfg.boidSize →
      sepPending cfg ops [A, B] A.id
        = some
            (if |ops.atan2 (A.position.2 - B.position.2) (A.position.1 - B.position.1) + ops.pi
                  - A.direction| < ops.pi then
              A.direction
                - (ops.atan2 (A.position.2 - B.position.2) (A.position.1 - B.position.1)
                      + ops.pi - A.direction)
                  * (cfg.separationSensitivity / ops.cbrt (distance ops A B))
            else
              A.direction
                - (A.direction
                    - (ops.atan2 (A.position.2 - B.position.2) (A.position.1 - B.position.1)
                        + ops.pi))
                  * (cfg.separationSensitivity / ops.cbrt (distance ops A B))))
      ∧ (cfg.separationDistance + cfg.boidSize ≤ distance ops A B →
          sepPending cfg ops [A, B] A.id = none) := by
  constructor
  · intro hlt
    rw [sepPending_pair cfg ops A B hid, if_pos hlt]
    congr 1
    simp only [sepNewDirection]
    split_ifs <;> rw [mul_div_assoc]
  · intro hge
    rw [sepPending_pair cfg ops A B hid, if_neg (not_lt.mpr hge)]

/-- Witness for C1: a near pair produces the formula's pending value and a
far pair produces none. -/
theorem separation_pending_formula_witness :
    testA.id ≠ testB.id
      ∧ distance testOps testA testB
          < referenceConfig.separationDistance + referenceConfig.boidSize
      ∧ sepPending referenceConfig testOps [testA, testB] testA.id
          = some
              (if |testOps.atan2 (testA.position.2 - testB.position.2)
                      (testA.position.1 - testB.position.1) + testOps.pi
                    - testA.direction| < testOps.pi then
                testA.direction
                  - (testOps.atan2 (testA.position.2 - testB.position.2)
                        (testA.position.1 - testB.position.1)
                        + testOps.pi - testA.direction)
                    * (referenceConfig.separationSensitivity
                        / testOps.cbrt (distance testOps testA testB))
              else
                testA.direction
                  - (testA.direction
                      - (testOps.atan2 (testA.position.2 - testB.position.2)
                          (testA.position.1 - testB.position.1) + testOps.pi))
                    * (referenceConfig.separationSensitivity
                        / testOps.cbrt (distance testOps testA testB)))
      ∧ referenceConfig.separationDistance + referenceConfig.boidSize
          ≤ distance testOps testA testFar
      ∧ sepPending referenceConfig testOps [testA, testFar] testA.id = none := by
  have hnear : distance testOps testA testB
      < referenceConfig.separationDistance + referenceConfig.boidSize := by
    norm_num [distance, testA, testB, testOps, referenceConfig]
  have hfar : referenceConfig.separationDistance + referenceConfig.boidSize
      ≤ distance testOps testA testFar := by
    norm_num [distance, testA, testFar, testOps, referenceConfig]
  refine ⟨by decide, hnear, ?_, hfar, ?_⟩
  · exact (separation_pending_formula referenceConfig testOps testA testB (by decide)).1 hnear
  · exact (separation_pending_formula referenceConfig testOps testA testFar (by decide)).2 hfar

/-- C7: the separation turn magnitude divides by distance^(1/3) with no
zero-distance guard: for two distinct-id agents at the same position the
distance is 0, the division by cbrt 0 is still performed, and the value it
produces is committed into the first agent's heading. -/
theorem separation_zero_distance_unguarded (cfg : Config) (ops : Ops) (A B : Boid)
    (hid : A.id ≠ B.id) (hpos : A.position = B.position) (hsqrt : ops.sqrt 0 = 0)
    (hthr : 0 < cfg.separationDistance + cfg.boidSize) :
    distance ops A B = 0
      ∧ (update_directions_from_separation cfg ops [A, B]).head?
          = some { A with direction :=
              if |ops.atan2 0 0 + ops.pi - A.direction| < ops.pi then
                A.direction - (ops.atan2 0 0 + ops.pi - A.direction)
                  * cfg.separationSensitivity / ops.cbrt 0
              else
                A.direction - (A.direction - (ops.atan2 0 0 + ops.pi))
                  * cfg.separationSensitivity / ops.cbrt 0 } := by
  have hd : distance ops A B = 0 := by
    unfold distance
    rw [hpos]
    simp [hsqrt]
  refine ⟨hd, ?_⟩
  have hp : sepPending cfg ops [A, B] A.id
      = some (sepNewDirection cfg ops A B (distance ops A B)) := by
    rw [sepPending_pair cfg ops A B hid, if_pos (by rw [hd]; exact hthr)]
  have hval : sepNewDirection cfg ops A B (distance ops A B)
      = (if |ops.atan2 0 0 + ops.pi - A.direction| < ops.pi then
          A.direction - (ops.atan2 0 0 + ops.pi - A.direction)
            * cfg.separationSensitivity / ops.cbrt 0
        else
          A.direction - (A.direction - (ops.atan2 0 0 + ops.pi))
            * cfg.separationSensitivity / ops.cbrt 0) := by
    simp [sepNewDirection, hd, hpos]
  have hcommit : commitOne (sepPending cfg ops [A, B]) A
      = { A with direction :=
          if |ops.atan2 0 0 + ops.pi - A.direction| < ops.pi then
            A.direction - (ops.atan2 0 0 + ops.pi - A.direction)
              * cfg.separationSensitivity / ops.cbrt 0
          else
            A.direction - (A.direction - (ops.atan2 0 0 + ops.pi))
              * cfg.separationSensitivity / ops.cbrt 0 } := by
    simp [commitOne, hp, hval]
  show ((applyUpdates (sepPending cfg ops [A, B]) [A, B]).head?) = _
  simp only [applyUpdates, List.map_cons, List.map_nil, List.head?_cons]
  rw [hcommit]

/-- Witness for C7 at two coincident boids with distinct ids. -/
theorem separation_zero_distance_unguarded_witness :
    testA.id ≠ testSame.id
      ∧ testA.position = testSame.position
      ∧ testOps.sqrt 0 = 0
      ∧ 0 < referenceConfig.separationDistance + referenceConfig.boidSize
      ∧ distance testOps testA testSame = 0
      ∧ (update_directions_from_separation referenceConfig testOps [testA, testSame]).head?
          = some { testA with direction :=
              if |testOps.atan2 0 0 + testOps.pi - testA.direction| < testOps.pi then
                testA.direction - (testOps.atan2 0 0 + testOps.pi - testA.direction)
                  * referenceConfig.separationSensitivity / testOps.cbrt 0
              else
                testA.direction - (testA.direction - (testOps.atan2 0 0 + testOps.pi))
                  * referenceConfig.separationSensitivity / testOps.cbrt 0 } := by
  have hsq : testOps.sqrt 0 = 0 := by norm_num [testOps]
  have hth : (0 : ℚ) < referenceConfig.separationDistance + referenceConfig.boidSize := by
    norm_num [referenceConfig]
  have h := separation_zero_distance_unguarded referenceConfig testOps testA testSame
    (by decide) rfl hsq hth
  exact ⟨by decide, rfl, hsq, hth, h.1, h.2⟩

/-- C10: every neighbour scan skips pairs by id equality rather than agent
identity, pending updates are keyed by id, and therefore two distinct
agents sharing an id exclude each other from the scans, overwrite each
other under the shared pending key, and receive the same single committed
heading from the write pass. -/
theorem duplicate_id_collision (cfg : Config) (ops : Ops) (A B : Boid) (m : Updates)
    (acc : ℚ × ℕ) (acc2 : (ℚ × ℚ) × ℕ) (v w : ℚ) (hne : A ≠ B) (hid : A.id = B.id) :
    sepStep cfg ops A m B = m
      ∧ sepStep cfg ops B m A = m
      ∧ alignStep cfg ops A acc B = acc
      ∧ cohStep cfg ops A acc2 B = acc2
      ∧ ((m.insert A.id v).insert B.id w) A.id = some w
      ∧ ((m.insert A.id v).insert B.id w) B.id = some w
      ∧ (∀ u, m A.id = some u →
          (commitOne m A).direction = u ∧ (commitOne m B).direction = u) := by
  refine ⟨?_, ?_, ?_, ?_, ?_, ?_, ?_⟩
  · unfold sepStep; rw [if_pos hid]
  · unfold sepStep; rw [if_pos hid.symm]
  · unfold alignStep; rw [if_pos hid]
  · unfold cohStep; rw [if_pos hid]
  · rw [hid, insert_lookup_self]
  · rw [insert_lookup_self]
  · intro u hu
    refine ⟨by simp [commitOne, hu], ?_⟩
    have hub : m B.id = some u := by rw [← hid]; exact hu
    simp [commitOne, hub]

/-- Witness for C10 at the concrete duplicated-id pair. -/
theorem duplicate_id_collision_witness :
    dupA ≠ dupB
      ∧ dupA.id = dupB.id
      ∧ sepStep referenceConfig testOps dupA (emptyUpdates.insert 5 9) dupB
          = emptyUpdates.insert 5 9
      ∧ (((emptyUpdates.insert 5 9).insert dupA.id 4).insert dupB.id 7) dupA.id = some 7
      ∧ (commitOne (emptyUpdates.insert 5 9) dupA).direction = 9
      ∧ (commitOne (emptyUpdates.insert 5 9) dupB).direction = 9 := by
  have hne : dupA ≠ dupB := by
    intro h
    have := congrArg Boid.direction h
    norm_num [dupA, dupB] at this
  have h := duplicate_id_collision referenceConfig testOps dupA dupB
    (emptyUpdates.insert 5 9) (0, 0) ((0, 0), 0) 4 7 hne rfl
  exact ⟨hne, rfl, h.1, h.2.2.2.2.1,
    (h.2.2.2.2.2.2 9 (insert_lookup_self _ _ _)).1,
    (h.2.2.2.2.2.2 9 (insert_lookup_self _ _ _)).2⟩

/-- C2: when an agent has two or more other agents inside the separation
threshold in one tick, its committed heading after the separation rule is
the pending heading computed from the neighbour processed last in the scan
order; earlier pending writes under the same key are overwritten, never
averaged or accumulated. -/
theorem separation_last_write_wins (cfg : Config) (ops : Ops) (bs : List Boid)
    (A B1 Blast : Boid) (hA : A ∈ bs) (hnd : (bs.map Boid.id).Nodup)
    (hB1 : B1 ∈ bs) (hB1id : A.id ≠ B1.id)
    (hB1near : distance ops A B1 < cfg.separationDistance + cfg.boidSize)
    (hB1ne : B1 ≠ Blast)
    (hlast : lastSepNeighbor cfg ops A bs = some Blast) :
    sepPending cfg ops bs A.id
        = some (sepNewDirection cfg ops A Blast (distance ops A Blast))
      ∧ commitOne (sepPending cfg ops bs) A
          = { A with direction := sepNewDirection cfg ops A Blast (distance ops A Blast) }
      ∧ update_directions_from_separation cfg ops bs
          = bs.map (commitOne (sepPending cfg ops bs)) := by
  have hp : sepPending cfg ops bs A.id
      = some (sepNewDirection cfg ops A Blast (distance ops A Blast)) := by
    rw [sepPending_lookup cfg ops bs A hA hnd, hlast]
  exact ⟨hp, by simp [commitOne, hp], rfl⟩

/-- Witness for C2: `testA` has both `testB` and `testC` within the
separation threshold and commits `testC`'s pending value, `testC` being
processed last. -/
theorem separation_last_write_wins_witness :
    testA ∈ [testA, testB, testC]
      ∧ ([testA, testB, testC].map Boid.id).Nodup
      ∧ testB ∈ [testA, testB, testC]
      ∧ testA.id ≠ testB.id
      ∧ distance testOps testA testB
          < referenceConfig.separationDistance + referenceConfig.boidSize
      ∧ testB ≠ testC
      ∧ lastSepNeighbor referenceConfig testOps testA [testA, testB, testC] = some testC
      ∧ sepPending referenceConfig testOps [testA, testB, testC] testA.id
          = some (sepNewDirection referenceConfig testOps testA testC
              (distance testOps testA testC))
      ∧ commitOne (sepPending referenceConfig testOps [testA, testB, testC]) testA
          = { testA with direction := (sepNewDirection referenceConfig testOps testA testC
              (distance testOps testA testC)) } := by
  have hA : testA ∈ [testA, testB, testC] := by simp
  have hnd : (([testA, testB, testC]).map Boid.id).Nodup := by decide
  have hB1 : testB ∈ [testA, testB, testC] := by simp
  have hid : testA.id ≠ testB.id := by decide
  have hnear : distance testOps testA testB
      < referenceConfig.separationDistance + referenceConfig.boidSize := by
    norm_num [distance, testA, testB, testOps, referenceConfig]
  have hne : testB ≠ testC := fun h => absurd (congrArg Boid.id h) (by decide)
  have hlast : lastSepNeighbor referenceConfig testOps testA [testA, testB, testC]
      = some testC := by
    norm_num [lastSepNeighbor, distance, testA, testB, testC, testOps, referenceConfig]
  have h := separation_last_write_wins referenceConfig testOps [testA, testB, testC]
    testA testB testC hA hnd hB1 hid hnear hne hlast
  exact ⟨hA, hnd, hB1, hid, hnear, hne, hlast, h.1, h.2.1⟩

/-- C3: the boundary-avoidance rule checks only the bottom, top and left
edge distances — never the right edge — blending the heading toward the
fixed bearing π/2, 3π/2 or 0 respectively with
k = separation_sensitivity / edge_distance^(1/3) whenever the edge
distance is below separation_distance; an agent near only the right edge
receives no pending update, while one at the mirrored near-left position
with nonzero sensitivity has its heading committed to the bearing-0
blend. -/
theorem boundary_avoidance_edges (cfg : Config) (ops : Ops) (b : Boid) :
    (b.position.2 + cfg.screenHeight / 2 < cfg.separationDistance →
      cfg.separationDistance ≤ cfg.screenHeight / 2 - b.position.2 →
      cfg.separationDistance ≤ b.position.1 + cfg.screenWidth / 2 →
      borderPending cfg ops [b] b.id
        = some (if |ops.pi / 2 - b.direction| < ops.pi then
            b.direction + (ops.pi / 2 - b.direction)
              * (cfg.separationSensitivity / ops.cbrt (b.position.2 + cfg.screenHeight / 2))
          else
            b.direction + (b.direction - ops.pi / 2)
              * (cfg.separationSensitivity / ops.cbrt (b.position.2 + cfg.screenHeight / 2))))
  ∧ (cfg.screenHeight / 2 - b.position.2 < cfg.separationDistance →
      cfg.separationDistance ≤ b.position.2 + cfg.screenHeight / 2 →
      cfg.separationDistance ≤ b.position.1 + cfg.screenWidth / 2 →
      borderPending cfg ops [b] b.id
        = some (if |3 * ops.pi / 2 - b.direction| < ops.pi then
            b.direction + (3 * ops.pi / 2 - b.direction)
              * (cfg.separationSensitivity / ops.cbrt (cfg.screenHeight / 2 - b.position.2))
          else
            b.direction + (b.direction - 3 * ops.pi / 2)
              * (cfg.separationSensitivity / ops.cbrt (cfg.screenHeight / 2 - b.position.2))))
  ∧ (cfg.separationSensitivity ≠ 0 →
      b.position.1 + cfg.screenWidth / 2 < cfg.separationDistance →
      cfg.separationDistance ≤ b.position.2 + cfg.screenHeight / 2 →
      cfg.separationDistance ≤ cfg.screenHeight / 2 - b.position.2 →
      borderPending cfg ops [b] b.id
          = some (if |0 - b.direction| < ops.pi then
              b.direction + (0 - b.direction)
                * (cfg.separationSensitivity / ops.cbrt (b.position.1 + cfg.screenWidth / 2))
            else
              b.direction + (b.direction - 0)
                * (cfg.separationSensitivity / ops.cbrt (b.position.1 + cfg.screenWidth / 2)))
        ∧ stay_away_from_borders cfg ops [b]
            = [{ b with direction :=
                if |0 - b.direction| < ops.pi then
                  b.direction + (0 - b.direction)
                    * (cfg.separationSensitivity / ops.cbrt (b.position.1 + cfg.screenWidth / 2))
                else
                  b.direction + (b.direction - 0)
                    * (cfg.separationSensitivity
                        / ops.cbrt (b.position.1 + cfg.screenWidth / 2)) }])
  ∧ (cfg.screenWidth / 2 - b.position.1 < cfg.separationDistance →
      cfg.separationDistance ≤ b.position.2 + cfg.screenHeight / 2 →
      cfg.separationDistance ≤ cfg.screenHeight / 2 - b.position.2 →
      cfg.separationDistance ≤ b.position.1 + cfg.screenWidth / 2 →
      borderPending cfg ops [b] b.id = none
        ∧ stay_away_from_borders cfg ops [b] = [b]) := by
  refine ⟨?_, ?_, ?_, ?_⟩
  · intro h1 h2 h3
    rw [borderPending_single]
    simp only [borderOne]
    rw [if_neg (not_lt.mpr h3), if_neg (not_lt.mpr h2), if_pos h1, insert_lookup_self,
      borderBlend_eq_kform]
  · intro h1 h2 h3
    rw [borderPending_single]
    simp only [borderOne]
    rw [if_neg (not_lt.mpr h3), if_pos h1, insert_lookup_self, borderBlend_eq_kform]
  · intro hk h1 h2 h3
    have hp : borderPending cfg ops [b] b.id
        = some (if |0 - b.direction| < ops.pi then
            b.direction + (0 - b.direction)
              * (cfg.separationSensitivity / ops.cbrt (b.position.1 + cfg.screenWidth / 2))
          else
            b.direction + (b.direction - 0)
              * (cfg.separationSensitivity / ops.cbrt (b.position.1 + cfg.screenWidth / 2))) := by
      rw [borderPending_single]
      simp only [borderOne]
      rw [if_pos h1, insert_lookup_self, borderBlend_eq_kform]
    refine ⟨hp, ?_⟩
    simp only [stay_away_from_borders, applyUpdates, List.map_cons, List.map_nil]
    simp [commitOne, hp]
  · intro h1 h2 h3 h4
    have hp : borderPending cfg ops [b] b.id = none := by
      rw [borderPending_single]
      simp only [borderOne]
      rw [if_neg (not_lt.mpr h4), if_neg (not_lt.mpr h3), if_neg (not_lt.mpr h2)]
      rfl
    refine ⟨hp, ?_⟩
    simp only [stay_away_from_borders, applyUpdates, List.map_cons, List.map_nil]
    simp [commitOne, hp]

/-- Witness for C3 at four concrete agents, one per edge scenario. -/
theorem boundary_avoidance_edges_witness :
    edgeBottom.position.2 + referenceConfig.screenHeight / 2
        < referenceConfig.separationDistance
      ∧ borderPending referenceConfig testOps [edgeBottom] edgeBottom.id
          = some (if |testOps.pi / 2 - edgeBottom.direction| < testOps.pi then
              edgeBottom.direction + (testOps.pi / 2 - edgeBottom.direction)
                * (referenceConfig.separationSensitivity
                    / testOps.cbrt (edgeBottom.position.2 + referenceConfig.screenHeight / 2))
            else
              edgeBottom.direction + (edgeBottom.direction - testOps.pi / 2)
                * (referenceConfig.separationSensitivity
                    / testOps.cbrt (edgeBottom.position.2 + referenceConfig.screenHeight / 2)))
      ∧ referenceConfig.screenHeight / 2 - edgeTop.position.2
          < referenceConfig.separationDistance
      ∧ borderPending referenceConfig testOps [edgeTop] edgeTop.id
          = some (if |3 * testOps.pi / 2 - edgeTop.direction| < testOps.pi then
              edgeTop.direction + (3 * testOps.pi / 2 - edgeTop.direction)
                * (referenceConfig.separationSensitivity
                    / testOps.cbrt (referenceConfig.screenHeight / 2 - edgeTop.position.2))
            else
              edgeTop.direction + (edgeTop.direction - 3 * testOps.pi / 2)
                * (referenceConfig.separationSensitivity
                    / testOps.cbrt (referenceConfig.screenHeight / 2 - edgeTop.position.2)))
      ∧ referenceConfig.separationSensitivity ≠ 0
      ∧ edgeLeft.position.1 + referenceConfig.screenWidth / 2
          < referenceConfig.separationDistance
      ∧ stay_away_from_borders referenceConfig testOps [edgeLeft]
          = [{ edgeLeft with direction :=
              if |0 - edgeLeft.direction| < testOps.pi then
                edgeLeft.direction + (0 - edgeLeft.direction)
                  * (referenceConfig.separationSensitivity
                      / testOps.cbrt (edgeLeft.position.1 + referenceConfig.screenWidth / 2))
              else
                edgeLeft.direction + (edgeLeft.direction - 0)
                  * (referenceConfig.separationSensitivity
                      / testOps.cbrt (edgeLeft.position.1 + referenceConfig.screenWidth / 2)) }]
      ∧ referenceConfig.screenWidth / 2 - edgeRight.position.1
          < referenceConfig.separationDistance
      ∧ borderPending referenceConfig testOps [edgeRight] edgeRight.id = none
      ∧ stay_away_from_borders referenceConfig testOps [edgeRight] = [edgeRight] := by
  have hb1 : edgeBottom.position.2 + referenceConfig.screenHeight / 2
      < referenceConfig.separationDistance := by norm_num [edgeBottom, referenceConfig]
  have hb2 : referenceConfig.separationDistance
      ≤ referenceConfig.screenHeight / 2 - edgeBottom.position.2 := by
    norm_num [edgeBottom, referenceConfig]
  have hb3 : referenceConfig.separationDistance
      ≤ edgeBottom.position.1 + referenceConfig.screenWidth / 2 := by
    norm_num [edgeBottom, referenceConfig]
  have ht1 : referenceConfig.screenHeight / 2 - edgeTop.position.2
      < referenceConfig.separationDistance := by norm_num [edgeTop, referenceConfig]
  have ht2 : referenceConfig.separationDistance
      ≤ edgeTop.position.2 + referenceConfig.screenHeight / 2 := by
    norm_num [edgeTop, referenceConfig]
  have ht3 : referenceConfig.separationDistance
      ≤ edgeTop.position.1 + referenceConfig.screenWidth / 2 := by
    norm_num [edgeTop, referenceConfig]
  have hk : referenceConfig.separationSensitivity ≠ 0 := by norm_num [referenceConfig]
  have hl1 : edgeLeft.position.1 + referenceConfig.screenWidth / 2
      < referenceConfig.separationDistance := by norm_num [edgeLeft, referenceConfig]
  have hl2 : referenceConfig.separationDistance
      ≤ edgeLeft.position.2 + referenceConfig.screenHeight / 2 := by
    norm_num [edgeLeft, referenceConfig]
  have hl3 : referenceConfig.separationDistance
      ≤ referenceConfig.screenHeight / 2 - edgeLeft.position.2 := by
    norm_num [edgeLeft, referenceConfig]
  have hr1 : referenceConfig.screenWidth / 2 - edgeRight.position.1
      < referenceConfig.separationDistance := by norm_num [edgeRight, referenceConfig]
  have hr2 : referenceConfig.separationDistance
      ≤ edgeRight.position.2 + referenceConfig.screenHeight / 2 := by
    norm_num [edgeRight, referenceConfig]
  have hr3 : referenceConfig.separationDistance
      ≤ referenceConfig.screenHeight / 2 - edgeRight.position.2 := by
    norm_num [edgeRight, referenceConfig]
  have hr4 : referenceConfig.separationDistance
      ≤ edgeRight.position.1 + referenceConfig.screenWidth / 2 := by
    norm_num [edgeRight, referenceConfig]
  refine ⟨hb1, (boundary_avoidance_edges referenceConfig testOps edgeBottom).1 hb1 hb2 hb3,
    ht1, (boundary_avoidance_edges referenceConfig testOps edgeTop).2.1 ht1 ht2 ht3,
    hk, hl1,
    ((boundary_avoidance_edges referenceConfig testOps edgeLeft).2.2.1 hk hl1 hl2 hl3).2,
    hr1,
    ((boundary_avoidance_edges referenceConfig testOps edgeRight).2.2.2 hr1 hr2 hr3 hr4).1,
    ((boundary_avoidance_edges referenceConfig testOps edgeRight).2.2.2 hr1 hr2 hr3 hr4).2⟩

/-- C6 (amended): with the separation, alignment and cohesion sensitivity
constants all 0 and pairwise-distinct agent ids, every heading is
unchanged across any number of ticks (all four directional rules act as
no-ops) and position advances by t · speed · (cos heading, sin heading)
after t ticks.  Without the distinct-id proviso the statement fails; see
the counterexample. -/
theorem zero_sensitivity_linear_motion (cfg : Config) (ops : Ops) (bs : List Boid) (n : ℕ)
    (hsep : cfg.separationSensitivity = 0) (hali : cfg.alignmentSensitivity = 0)
    (hcoh : cfg.cohesionSensitivity = 0) (hnd : (bs.map Boid.id).Nodup) :
    (tickIter cfg ops n bs).map Boid.direction = bs.map Boid.direction
      ∧ (tickIter cfg ops n bs).map Boid.position
          = bs.map (fun b =>
              (b.position.1 + (n : ℚ) * (ops.cos b.direction * cfg.speed),
               b.position.2 + (n : ℚ) * (ops.sin b.direction * cfg.speed))) := by
  rw [tickIter_zero cfg ops bs n hsep hali hcoh hnd]
  constructor
  · rw [List.map_map]
    exact List.map_congr_left (fun b _ => freeIter_direction cfg ops n b)
  · rw [List.map_map]
    exact List.map_congr_left (fun b _ => freeIter_position cfg ops n b)

/-- Witness for C6 at a concrete two-boid population over two ticks. -/
theorem zero_sensitivity_linear_motion_witness :
    zeroCfg.separationSensitivity = 0
      ∧ zeroCfg.alignmentSensitivity = 0
      ∧ zeroCfg.cohesionSensitivity = 0
      ∧ ([testA, testB].map Boid.id).Nodup
      ∧ (tickIter zeroCfg testOps 2 [testA, testB]).map Boid.direction
          = [testA, testB].map Boid.direction
      ∧ (tickIter zeroCfg testOps 2 [testA, testB]).map Boid.position
          = [testA, testB].map (fun b =>
              (b.position.1 + ((2 : ℕ) : ℚ) * (testOps.cos b.direction * zeroCfg.speed),
               b.position.2 + ((2 : ℕ) : ℚ) * (testOps.sin b.direction * zeroCfg.speed))) := by
  have h := zero_sensitivity_linear_motion zeroCfg testOps [testA, testB] 2 rfl rfl rfl
    (by decide)
  exact ⟨rfl, rfl, rfl, by decide, h.1, h.2⟩

/-- Counterexample for C6 as stated: all three sensitivities are 0, yet a
population with a duplicated id near the bottom border ends the tick with
a changed heading, because both same-id agents' border updates share one
pending key and the write pass commits the last writer's heading to
both. -/
theorem zero_sensitivity_heading_counterexample :
    (tickIter zeroCfg testOps 1 [ctrA, ctrB]).map Boid.direction
      ≠ [ctrA.direction, ctrB.direction] := by
  have hsep : update_directions_from_separation zeroCfg testOps [ctrA, ctrB]
      = [ctrA, ctrB] := rfl
  have hali : update_directions_from_alignment zeroCfg testOps [ctrA, ctrB]
      = [ctrA, ctrB] := rfl
  have hcoh : update_directions_from_cohesion zeroCfg testOps [ctrA, ctrB]
      = [ctrA, ctrB] := rfl
  have hkey : borderPending zeroCfg testOps [ctrA, ctrB] 5 = some 2 := by
    norm_num [borderPending, borderOne, borderBlend, Updates.insert, emptyUpdates,
      ctrA, ctrB, zeroCfg, referenceConfig, testOps]
  have hca : commitOne (borderPending zeroCfg testOps [ctrA, ctrB]) ctrA
      = { ctrA with direction := 2 } := by
    simp [commitOne, show ctrA.id = 5 from rfl, hkey]
  have hcb : commitOne (borderPending zeroCfg testOps [ctrA, ctrB]) ctrB
      = { ctrB with direction := 2 } := by
    simp [commitOne, show ctrB.id = 5 from rfl, hkey]
  have hbor : stay_away_from_borders zeroCfg testOps [ctrA, ctrB]
      = [{ ctrA with direction := 2 }, { ctrB with direction := 2 }] := by
    simp only [stay_away_from_borders, applyUpdates, List.map_cons, List.map_nil]
    rw [hca, hcb]
  show (tick zeroCfg testOps [ctrA, ctrB]).map Boid.direction ≠ _
  rw [tick_eq, hsep, hali, hcoh, hbor, vel_pos_direction]
  intro h
  norm_num [ctrA, ctrB] at h

end Boids
